import Mathlib

/-!
Verification development for the ec2-launch-monitor repository.

The embedding models the Python sources `src/lambda/index.py` and
`src/convertcsv.py`. Python strings are modelled as `List Char` (named
`Str` below) so that the raw text operations the code performs
(`strip`, `split('\n')`, `split(',')`, `rstrip('\n')`, concatenation)
are explicit and executable. Python dicts are modelled as association
lists with Python's insertion-order semantics: assigning to an existing
key updates the value in place, assigning to a fresh key appends at the
end. External collaborators (the EC2 lookup, STS and the S3 object
store) are modelled as explicit parameters and a small state record.
-/

namespace Ec2Report

/-- Python strings, modelled as lists of characters. -/
abbrev Str := List Char

/-- Embed a Lean string literal as a `Str`. -/
def strL (s : String) : Str := s.data

/-! ## Python dict primitives (insertion-ordered association lists) -/

/-- `d[k]` lookup returning `none` when the key is absent (`KeyError`). -/
def pyGet {α : Type} : List (Str × α) → Str → Option α
  | [], _ => none
  | (k, v) :: rest, key => if k = key then some v else pyGet rest key

/-- `d[k] = v`: update in place when the key exists (keeping its
position, as Python dicts do), otherwise append at the end. -/
def pySet {α : Type} : List (Str × α) → Str → α → List (Str × α)
  | [], key, val => [(key, val)]
  | (k, v) :: rest, key, val =>
    if k = key then (k, val) :: rest else (k, v) :: pySet rest key val

/-- `d.pop(k, None)`: drop the entry with the given key. -/
def pyPop {α : Type} (d : List (Str × α)) (key : Str) : List (Str × α) :=
  d.filter (fun p => decide (p.1 ≠ key))

/-- The keys of a dict, in order. -/
def keysOf {α : Type} (d : List (Str × α)) : List Str := d.map (fun p => p.1)

/-! ## Python string primitives -/

/-- The characters Python's `str.strip()` removes. -/
def isPyWs (c : Char) : Bool :=
  c = ' ' || c = '\t' || c = '\n' || c = '\r' || c = '\x0B' || c = '\x0C'

/-- Strip whitespace from the left end only. -/
def stripLeftWs (s : Str) : Str := s.dropWhile isPyWs

/-- Strip whitespace from the right end only. -/
def stripRightWs (s : Str) : Str := (s.reverse.dropWhile isPyWs).reverse

/-- Python `s.strip()`. -/
def pyStrip (s : Str) : Str := stripLeftWs (stripRightWs s)

/-- Python `s.rstrip('\n')`: remove trailing newline characters only
(a trailing `'\r'` survives). -/
def pyRStripNl (s : Str) : Str :=
  (s.reverse.dropWhile (fun c => c = '\n')).reverse

/-- Python `s.split(sep)` for a one-character separator: keeps empty
pieces and returns `[""]` on the empty string. -/
def splitOnChar (sep : Char) : Str → List Str
  | [] => [[]]
  | c :: cs =>
    let rest := splitOnChar sep cs
    if c = sep then [] :: rest
    else
      match rest with
      | [] => [[c]]
      | t :: ts => (c :: t) :: ts

/-- Python `s.strip(c)` for a single character `c`. -/
def stripBoth (ch : Char) (s : Str) : Str :=
  ((s.dropWhile (fun x => x = ch)).reverse.dropWhile (fun x => x = ch)).reverse

/-- Python `sep.join(pieces)`. -/
def joinWith (sep : Str) : List Str → Str
  | [] => []
  | [x] => x
  | x :: xs => x ++ sep ++ joinWith sep xs

/-- Decimal rendering of a natural number. -/
def natStr (n : Nat) : Str := (Nat.repr n).data

/-- Python `f"{n:02d}"`. -/
def pad2 (n : Nat) : Str := if n < 10 then '0' :: natStr n else natStr n

/-- `strftime('%Y')`: the year zero-padded to four digits. -/
def pad4 (n : Nat) : Str :=
  if n < 10 then strL "000" ++ natStr n
  else if n < 100 then strL "00" ++ natStr n
  else if n < 1000 then '0' :: natStr n
  else natStr n

/-! ## The csv module (excel dialect, as used by `csv.DictWriter`)

`csv.writer` with the default dialect quotes a cell iff it contains the
delimiter, the quote character or a line-terminator character, doubling
any embedded quote, and terminates each record with `"\r\n"`. -/

/-- Characters that force quoting under `QUOTE_MINIMAL`. -/
def isCsvSpecial (c : Char) : Bool :=
  c = ',' || c = '"' || c = '\r' || c = '\n'

/-- Serialize one cell under `QUOTE_MINIMAL`. -/
def csvCell (s : Str) : Str :=
  if s.any isCsvSpecial then
    '"' :: (s.flatMap (fun c => if c = '"' then ['"', '"'] else [c])) ++ ['"']
  else s

/-- Serialize one record: comma-joined cells plus the `"\r\n"`
line terminator. -/
def csvLine (cells : List Str) : Str :=
  joinWith [','] (cells.map csvCell) ++ ['\r', '\n']

/-- `DictWriter.writerow`'s cell extraction: one cell per field name,
`restval=''` for a field the row does not have. (At both call sites in
the source the field-name list is a superset of every row's keys, so
`extrasaction='raise'` never fires and is not modelled.) -/
def rowCells (fieldnames : List Str) (row : List (Str × Str)) : List Str :=
  fieldnames.map (fun f => (pyGet row f).getD [])

/-- Write a batch of rows, one `writerow` per row. -/
def writeRows (fieldnames : List Str) (rows : List (List (Str × Str))) : Str :=
  (rows.map (fun r => csvLine (rowCells fieldnames r))).flatten

/-! ## `sorted(list(set(...)))` over column names

Python string comparison is lexicographic over code points; `sorted` on
a set yields the sorted list of its distinct members. `sortedDedup`
computes that directly by sorted-unique insertion. -/

/-- Lexicographic `<` on Python strings. -/
def strLt : Str → Str → Bool
  | _, [] => false
  | [], _ :: _ => true
  | a :: as, b :: bs => if a < b then true else if b < a then false else strLt as bs

/-- Insert into a sorted duplicate-free list, keeping it so. -/
def insertSorted (x : Str) : List Str → List Str
  | [] => [x]
  | y :: ys =>
    if strLt x y then x :: y :: ys
    else if x = y then y :: ys
    else y :: insertSorted x ys

/-- `sorted(list(set(l)))`: the sorted list of the distinct members. -/
def sortedDedup (l : List Str) : List Str := l.foldr insertSorted []

/-! ## JSON-ish Python values

`Val` models the values that appear in the instance-detail dicts the
lambda builds and the JSON the offline converter reads: strings, lists
and (string-keyed) dicts. -/

inductive Val where
  | s (v : Str)
  | list (items : List Val)
  | map (fields : List (Str × Val))

instance : Inhabited Val := ⟨Val.s []⟩

/-- Is this a scalar (string) value? -/
def Val.isS : Val → Bool
  | .s _ => true
  | _ => false

/-- `str(value)` as applied by the csv writer. Rows reaching the writer
are fully flattened — every value is a `.s` (theorem
`c7_flattened_rows_all_scalar`) — so the non-scalar branches are
unreachable there and their rendering is left abstract. -/
def valToStr : Val → Str
  | Val.s v => v
  | Val.list _ => strL "<nonscalar-list>"
  | Val.map _ => strL "<nonscalar-dict>"

/-- Convert a flattened record to the string-valued row the csv writer
consumes. -/
def rowToStrRow (r : List (Str × Val)) : List (Str × Str) :=
  r.map (fun p => (p.1, valToStr p.2))

/-- `x` when the value is a Python `str`, else `none` (`TypeError`). -/
def strOfVal : Val → Option Str
  | Val.s v => some v
  | _ => none

/-- Python `', '.join(x)`: joins a list of strings; iterating a string
joins its characters; iterating a dict joins its keys; a list with a
non-string element raises (`none`). -/
def joinCommaSpace : Val → Option Str
  | Val.s v => some (joinWith [',', ' '] (v.map (fun c => [c])))
  | Val.list items => (items.mapM strOfVal).map (joinWith [',', ' '])
  | Val.map fields => some (joinWith [',', ' '] (fields.map (fun p => p.1)))

/-- Python `x.items()`: the pairs of a dict; anything else raises
`AttributeError` (`none`). -/
def valItems : Val → Option (List (Str × Val))
  | Val.map fields => some fields
  | _ => none

/-! ## `extract_event_details` (src/lambda/index.py, lines 31-43)

`event['detail']['responseElements']['instancesSet']['items']` followed
by `[instance['instanceId'] for instance in instances]`. Any `KeyError`
or `TypeError` on the way (missing key, indexing a non-dict, iterating
a non-list and then string-indexing its elements) is caught by the
`except` clauses and yields `[]`. -/

/-- `v[key]` — `none` models the `KeyError`/`TypeError` raised when the
key is absent or `v` is not a dict. -/
def jGet (v : Val) (key : Str) : Option Val :=
  match v with
  | Val.map fields => pyGet fields key
  | _ => none

/-- The comprehension iterates `instances`; only an actual list yields
item dicts (iterating a dict yields string keys and iterating a string
yields characters, and string-indexing either raises, caught as `[]`). -/
def asItemsList : Val → Option (List Val)
  | Val.list items => some items
  | _ => none

/-- The fixed path down to the `items` list. -/
def itemsPath (event : Val) : Option (List Val) :=
  (jGet event (strL "detail")).bind (fun detail =>
  (jGet detail (strL "responseElements")).bind (fun re =>
  (jGet re (strL "instancesSet")).bind (fun iset =>
  (jGet iset (strL "items")).bind asItemsList)))

/-- `extract_event_details`: the instance ids in source order, or `[]`
when any step of the navigation or any item's `['instanceId']` fails. -/
def extract_event_details (event : Val) : List Val :=
  match (itemsPath event).bind
      (fun items => items.mapM (fun inst => jGet inst (strL "instanceId"))) with
  | some ids => ids
  | none => []

/-! ## `process_tagged_instances` (src/lambda/index.py, lines 45-112)

The `describe_instances` response is an external collaborator and is
passed in as `response : Option (List (List Instance))` (reservations,
each a list of instances); `none` models the call raising, which the
`except` at line 110 turns into the zero `result`. -/

/-- The fields of one instance description that the code reads. Absent
optional fields model `instance.get(...)` misses; `stateName` collapses
`instance.get('State', {}).get('Name', ...)` (an absent `State` dict and
an absent `Name` key are indistinguishable to the code). -/
structure Instance where
  instanceId : Str
  privateIp : Option Str
  publicIp : Option Str
  instanceType : Option Str
  stateName : Option Str
  launchTime : Option Str
  availabilityZone : Option Str
  vpcId : Option Str
  subnetId : Option Str
  securityGroups : List Str
  keyName : Option Str
  tags : List (Str × Str)

/-- `{tag['Key']: tag['Value'] for tag in tags}`: dict comprehension,
first occurrence fixes the position, a later duplicate key overwrites
the value in place. -/
def pyDictOfPairs (pairs : List (Str × Str)) : List (Str × Val) :=
  pairs.foldl (fun acc p => pySet acc p.1 (Val.s p.2)) []

/-- `any(tag['Key'] == tag_key and tag['Value'] == tag_value for tag in tags)`
with `tag_key = 'adhoc'`, `tag_value = 'true'`. -/
def hasRequiredTag (tags : List (Str × Str)) : Bool :=
  tags.any (fun tag =>
    decide (tag.1 = strL "adhoc") && decide (tag.2 = strL "true"))

/-- The `instance_details` dict built at lines 84-97, in source key
order. -/
def detailsOf (inst : Instance) : List (Str × Val) :=
  [ (strL "instance_id", Val.s inst.instanceId),
    (strL "private_ip", Val.s (inst.privateIp.getD (strL "N/A"))),
    (strL "public_ip", Val.s (inst.publicIp.getD (strL "N/A"))),
    (strL "instance_type", Val.s (inst.instanceType.getD (strL "Unknown"))),
    (strL "state", Val.s (inst.stateName.getD (strL "Unknown"))),
    (strL "launch_time", Val.s (inst.launchTime.getD (strL "N/A"))),
    (strL "availability_zone", Val.s (inst.availabilityZone.getD (strL "N/A"))),
    (strL "vpc_id", Val.s (inst.vpcId.getD (strL "N/A"))),
    (strL "subnet_id", Val.s (inst.subnetId.getD (strL "N/A"))),
    (strL "security_groups", Val.list (inst.securityGroups.map Val.s)),
    (strL "key_name", Val.s (inst.keyName.getD (strL "N/A"))),
    (strL "tags", Val.map (pyDictOfPairs inst.tags)) ]

/-- The running counters. -/
structure Summary where
  total_processed : Nat
  tagged_count : Nat
  untagged_count : Nat

/-- The `result` dict of `process_tagged_instances`. -/
structure ProcResult where
  tagged_instances : List (Str × List (Str × Val))
  summary : Summary

/-- One iteration of the instance loop (lines 70-105). -/
def procInst (acc : ProcResult) (inst : Instance) : ProcResult :=
  let s := acc.summary
  let s := { s with total_processed := s.total_processed + 1 }
  if hasRequiredTag inst.tags then
    { tagged_instances := pySet acc.tagged_instances inst.instanceId (detailsOf inst),
      summary := { s with tagged_count := s.tagged_count + 1 } }
  else
    { tagged_instances := acc.tagged_instances,
      summary := { s with untagged_count := s.untagged_count + 1 } }

/-- The zero `result` built at lines 53-60. -/
def emptyProcResult : ProcResult := ⟨[], ⟨0, 0, 0⟩⟩

/-- `process_tagged_instances`. -/
def process_tagged_instances (instance_ids : List Val)
    (response : Option (List (List Instance))) : ProcResult :=
  if instance_ids.isEmpty then emptyProcResult
  else
    match response with
    | none => emptyProcResult
    | some reservations =>
      reservations.foldl (fun acc insts => insts.foldl procInst acc) emptyProcResult

/-! ## Row flattening (src/lambda/index.py, lines 126-142, and
src/convertcsv.py, lines 14-32)

Both functions copy the details dict, replace `security_groups` by a
`', '`-joined string, add one `tag_<key>` column per tag, and pop the
nested `tags` dict; the lambda additionally stamps `processed_at`.
`none` models an exception escaping the loop body (a non-string
security-group element or a non-dict `tags`), which aborts the
enclosing `try`. `now` determinizes `datetime.utcnow().isoformat()`. -/

/-- The flattening in `store_to_s3_csv` (lines 126-142 of index.py). -/
def flatten_instance_record (now : Str) (instance_details : List (Str × Val)) :
    Option (List (Str × Val)) :=
  (joinCommaSpace ((pyGet instance_details (strL "security_groups")).getD
      (Val.list []))).bind (fun sgs =>
  (valItems ((pyGet instance_details (strL "tags")).getD (Val.map []))).bind
      (fun tag_items =>
    let r1 := pySet instance_details (strL "security_groups") (Val.s sgs)
    let r2 := tag_items.foldl
      (fun acc kv => pySet acc (strL "tag_" ++ kv.1) kv.2) r1
    let r3 := pyPop r2 (strL "tags")
    some (pySet r3 (strL "processed_at") (Val.s now))))

/-- The flattening in `load_json_file` (lines 14-32 of convertcsv.py);
identical except that no `processed_at` column is stamped. -/
def load_json_flatten (instance_details : List (Str × Val)) :
    Option (List (Str × Val)) :=
  (joinCommaSpace ((pyGet instance_details (strL "security_groups")).getD
      (Val.list []))).bind (fun sgs =>
  (valItems ((pyGet instance_details (strL "tags")).getD (Val.map []))).bind
      (fun tag_items =>
    let r1 := pySet instance_details (strL "security_groups") (Val.s sgs)
    let r2 := tag_items.foldl
      (fun acc kv => pySet acc (strL "tag_" ++ kv.1) kv.2) r1
    some (pyPop r2 (strL "tags"))))

/-- `load_json_file` restricted to its flattening core: the file read
and `json.load` are I/O and are abstracted — the input is the parsed
`tagged_instances` mapping; the surrounding `try` turns any raise into
`[]`. -/
def load_json_file_rows (tagged_instances : List (Str × List (Str × Val))) :
    List (List (Str × Val)) :=
  match tagged_instances.mapM (fun p => load_json_flatten p.2) with
  | some instances_list => instances_list
  | none => []

/-! ## `store_to_s3_csv` (src/lambda/index.py, lines 114-213)

The S3 client is modelled by `S3State`: `object` is the artifact at the
(deterministically derived) daily key, `getFails` makes `get_object`
raise a non-`NoSuchKey` error (caught at lines 159-160, after which the
code proceeds as if the file did not exist), `putFails` makes
`put_object` raise (caught by the outer `except` at lines 211-213,
which returns `None` with the stored object untouched — an S3 put is
all-or-nothing). `put_object`'s `Metadata` does not affect the object's
bytes and is not modelled. -/

structure S3State where
  object : Option Str
  getFails : Bool
  putFails : Bool

/-- The `datetime.utcnow()` the function takes; `iso` is its
`isoformat()`. -/
structure Timestamp where
  year : Nat
  month : Nat
  day : Nat
  iso : Str

/-- Line 147: the daily S3 key. -/
def s3KeyOf (account_id : Str) (ts : Timestamp) : Str :=
  strL "ec2-launch-reports/" ++ natStr ts.year ++ strL "/" ++ pad2 ts.month ++
  strL "/ec2-instances-" ++ account_id ++ strL "-" ++ pad4 ts.year ++
  strL "-" ++ pad2 ts.month ++ strL "-" ++ pad2 ts.day ++ strL ".csv"

/-- Line 171-173: re-parse the stored header line. `split('\n')` on a
Python string never yields `[]`, so the `if existing_lines:` guard is
always taken; the `[]` branch here is unreachable. -/
def existingHeaders (content : Str) : List Str :=
  match splitOnChar '\n' (pyStrip content) with
  | [] => []
  | h :: _ => (splitOnChar ',' h).map (stripBoth '"')

/-- Lines 162-191: determine the field names and build the new csv
text. In append mode the previously stored bytes are re-emitted
verbatim (`existing.rstrip('\n') + '\n'`) and only the new rows are
serialized under the widened field-name list. -/
def mergeContent (file_exists : Bool) (existing : Str)
    (instances_data : List (List (Str × Str))) : Str :=
  let batchNames := instances_data.flatMap keysOf
  let allNames :=
    if file_exists && !existing.isEmpty then
      batchNames ++ existingHeaders existing
    else batchNames
  let fieldnames := sortedDedup allNames
  if file_exists && !existing.isEmpty then
    pyRStripNl existing ++ '\n' :: writeRows fieldnames instances_data
  else
    csvLine fieldnames ++ writeRows fieldnames instances_data

/-- `store_to_s3_csv`. Returns the new S3 state and the value the
function returns (`some key` on success, `none` on every skip or error
path). -/
def store_to_s3_csv (st : S3State) (status : Str)
    (tagged_instances : List (Str × List (Str × Val)))
    (account_id : Str) (ts : Timestamp) (now : Str) : S3State × Option Str :=
  if status ≠ strL "success" then (st, none)
  else if tagged_instances.isEmpty then (st, none)
  else
    match tagged_instances.mapM (fun p => flatten_instance_record now p.2) with
    | none => (st, none)
    | some flattened =>
      let instances_data := flattened.map rowToStrRow
      let s3_key := s3KeyOf account_id ts
      let load :=
        if st.getFails then ([], false)
        else
          match st.object with
          | none => ([], false)
          | some content => (content, true)
      let body := mergeContent load.2 load.1 instances_data
      if st.putFails then (st, none)
      else ({ st with object := some body }, some s3_key)

/-! ## `process_ec2_launch_event` (src/lambda/index.py, lines 215-274) -/

/-- The response dict; fields a branch does not set are `none`. -/
structure PipelineResult where
  status : Str
  error : Option Str
  message : Option Str
  account_id : Option Str
  instance_ids : Option (List Val)
  summary : Summary
  tagged_instances : List (Str × List (Str × Val))
  s3_report : Option Str

/-- `process_ec2_launch_event`. The STS account lookup is the external
parameter `account` (`none` models `get_account_id()` returning `None`,
which the f-string key derivation renders as `"None"`). -/
def process_ec2_launch_event (st : S3State) (event : Val)
    (response : Option (List (List Instance))) (account : Option Str)
    (ts : Timestamp) (now : Str) : S3State × PipelineResult :=
  let instance_ids := extract_event_details event
  if instance_ids.isEmpty then
    (st, { status := strL "error",
           error := some (strL "No instance IDs found in event"),
           message := none, account_id := none, instance_ids := some [],
           summary := ⟨0, 0, 0⟩, tagged_instances := [], s3_report := none })
  else
    let processing_result := process_tagged_instances instance_ids response
    if processing_result.summary.tagged_count = 0 then
      (st, { status := strL "no_matches",
             error := some (strL "No instances found with required adhoc=true tag"),
             message := none, account_id := none, instance_ids := none,
             summary := processing_result.summary, tagged_instances := [],
             s3_report := none })
    else
      let acct := match account with | some a => a | none => strL "None"
      let response_data : PipelineResult :=
        { status := strL "success", error := none,
          message := some (strL "Successfully processed " ++
            natStr processing_result.summary.total_processed ++
            strL " instances, found " ++
            natStr processing_result.summary.tagged_count ++
            strL " with required tags"),
          account_id := some acct, instance_ids := none,
          summary := processing_result.summary,
          tagged_instances := processing_result.tagged_instances,
          s3_report := none }
      let stored := store_to_s3_csv st (strL "success")
        processing_result.tagged_instances acct ts now
      match stored.2 with
      | some k =>
        if k.isEmpty then (stored.1, response_data)
        else (stored.1, { response_data with s3_report := some k })
      | none => (stored.1, response_data)

/-- A character that is neither csv-special nor Python whitespace. -/
def safeNameChar (c : Char) : Bool := !(isCsvSpecial c || isPyWs c)

/-- A column name that survives the raw-text round trip: non-empty,
no delimiter/quote/EOL characters and no whitespace. -/
def safeName (s : Str) : Bool := !s.isEmpty && s.all safeNameChar

/-- Every key of every row is a safe name. Values are unconstrained:
the csv writer quotes them as needed, and only the column names take
part in the raw-text header round trip. -/
def csvSafeKeys (rows : List (List (Str × Str))) : Bool :=
  rows.all (fun r => r.all (fun p => safeName p.1))

/-! ## Shared lemmas -/

theorem procInst_balance (acc : ProcResult) (inst : Instance)
    (h : acc.summary.total_processed =
      acc.summary.tagged_count + acc.summary.untagged_count) :
    (procInst acc inst).summary.total_processed =
      (procInst acc inst).summary.tagged_count +
      (procInst acc inst).summary.untagged_count := by
  unfold procInst
  split <;> simp <;> omega

theorem foldl_procInst_balance (insts : List Instance) (acc : ProcResult)
    (h : acc.summary.total_processed =
      acc.summary.tagged_count + acc.summary.untagged_count) :
    (insts.foldl procInst acc).summary.total_processed =
      (insts.foldl procInst acc).summary.tagged_count +
      (insts.foldl procInst acc).summary.untagged_count := by
  induction insts generalizing acc with
  | nil => simpa using h
  | cons i is ih => exact ih _ (procInst_balance acc i h)

theorem foldl_reservations_balance (rsv : List (List Instance)) (acc : ProcResult)
    (h : acc.summary.total_processed =
      acc.summary.tagged_count + acc.summary.untagged_count) :
    ((rsv.foldl (fun a insts => insts.foldl procInst a) acc)).summary.total_processed =
      ((rsv.foldl (fun a insts => insts.foldl procInst a) acc)).summary.tagged_count +
      ((rsv.foldl (fun a insts => insts.foldl procInst a) acc)).summary.untagged_count := by
  induction rsv generalizing acc with
  | nil => simpa using h
  | cons insts rest ih => exact ih _ (foldl_procInst_balance insts acc h)

/-! ## Claim theorems -/

/-- C3: for every classification run — any identifier list and any
lookup outcome, including a failed lookup — the returned summary
satisfies `total_processed = tagged_count + untagged_count`. -/
theorem c3_summary_balance (instance_ids : List Val)
    (response : Option (List (List Instance))) :
    (process_tagged_instances instance_ids response).summary.total_processed =
      (process_tagged_instances instance_ids response).summary.tagged_count +
      (process_tagged_instances instance_ids response).summary.untagged_count := by
  unfold process_tagged_instances
  split
  · rfl
  · match response with
    | none => rfl
    | some rsv => exact foldl_reservations_balance rsv emptyProcResult rfl

/-- C4: the classifier counts a resource as tagged iff its tag set has
a pair with key exactly `"adhoc"` and value exactly `"true"` (first
conjunct), and a tagged resource yields a row in `tagged_instances`
while an untagged resource's data is discarded (second conjunct,
a single-instance classification run). -/
theorem c4_tag_predicate :
    (∀ tags : List (Str × Str),
      hasRequiredTag tags = true ↔
        ∃ p ∈ tags, p.1 = strL "adhoc" ∧ p.2 = strL "true")
    ∧ ∀ inst : Instance,
      process_tagged_instances [Val.s inst.instanceId] (some [[inst]]) =
        if hasRequiredTag inst.tags then
          ⟨[(inst.instanceId, detailsOf inst)], ⟨1, 1, 0⟩⟩
        else ⟨[], ⟨1, 0, 1⟩⟩ := by
  constructor
  · intro tags
    simp [hasRequiredTag, List.any_eq_true]
  · intro inst
    by_cases h : hasRequiredTag inst.tags <;>
      simp [process_tagged_instances, procInst, emptyProcResult, pySet, h]

/-- C6: a merge called with an empty row batch performs no write and
returns no artifact location — the S3 state (hence the stored
artifact's bytes at every key) is unchanged. -/
theorem c6_empty_batch_noop (st : S3State) (status account : Str)
    (ts : Timestamp) (now : Str) :
    store_to_s3_csv st status [] account ts now = (st, none) := by
  unfold store_to_s3_csv
  split
  · rfl
  · simp

/-- C2 (original claim refuted at a load failure): with an existing
artifact and a failing (non-`NoSuchKey`) `get_object`, the merge is NOT
abandoned — the code logs, treats the artifact as absent, and
overwrites it, so the stored bytes change. -/
theorem c2_load_failure_overwrites :
    (store_to_s3_csv ⟨some (strL "old\r\nbytes\r\n"), true, false⟩
      (strL "success")
      [(strL "i-1", [(strL "instance_id", Val.s (strL "i-1"))])]
      (strL "acct") ⟨2026, 1, 2, strL "T0"⟩ (strL "T0")).1.object ≠
    some (strL "old\r\nbytes\r\n") := by decide

/-- C2 (amended): if the write step fails, the merge is abandoned with
no partial write — the whole S3 state, in particular the stored
artifact's bytes, is exactly as before the call, and no location is
returned. (A failing load, by contrast, is treated as an absent
artifact and the merge proceeds; see `c2_load_failure_overwrites`.) -/
theorem c2_write_failure_atomic (st : S3State) (hput : st.putFails = true)
    (status : Str) (tagged_instances : List (Str × List (Str × Val)))
    (account_id : Str) (ts : Timestamp) (now : Str) :
    store_to_s3_csv st status tagged_instances account_id ts now = (st, none) := by
  unfold store_to_s3_csv
  split
  · rfl
  · split
    · rfl
    · split
      · rfl
      · simp [hput]

/-- Witness for `c2_write_failure_atomic` at a concrete failing-write
state and a concrete non-empty batch. -/
theorem c2_write_failure_atomic_witness :
    (S3State.mk (some (strL "a\r\n1\r\n")) false true).putFails = true ∧
    store_to_s3_csv ⟨some (strL "a\r\n1\r\n"), false, true⟩ (strL "success")
      [(strL "i-1", [(strL "instance_id", Val.s (strL "i-1"))])]
      (strL "acct") ⟨2026, 1, 2, strL "T0"⟩ (strL "T0") =
      (⟨some (strL "a\r\n1\r\n"), false, true⟩, none) :=
  ⟨rfl, c2_write_failure_atomic ⟨some (strL "a\r\n1\r\n"), false, true⟩ rfl
    (strL "success")
    [(strL "i-1", [(strL "instance_id", Val.s (strL "i-1"))])]
    (strL "acct") ⟨2026, 1, 2, strL "T0"⟩ (strL "T0")⟩

/-- C9: the extractor returns exactly the values found at the fixed
nested path, in source order with duplicates preserved (the `mapM` over
the items list, second conjunct), and returns `[]` instead of raising
whenever the path navigation or any item's identifier lookup fails
(first conjunct). -/
theorem c9_extractor_total_and_ordered :
    (∀ event : Val, extract_event_details event =
      match itemsPath event with
      | none => []
      | some items =>
        (items.mapM (fun inst => jGet inst (strL "instanceId"))).getD [])
    ∧ ∀ ids : List Val,
      (ids.map (fun v => Val.map [(strL "instanceId", v)])).mapM
        (fun inst => jGet inst (strL "instanceId")) = some ids := by
  constructor
  · intro event
    unfold extract_event_details
    cases h : itemsPath event with
    | none => rfl
    | some items =>
      show (match items.mapM (fun inst => jGet inst (strL "instanceId")) with
            | some ids => ids
            | none => []) =
        (items.mapM (fun inst => jGet inst (strL "instanceId"))).getD []
      cases items.mapM (fun inst => jGet inst (strL "instanceId")) <;> rfl
  · intro ids
    induction ids with
    | nil => rfl
    | cons x xs ih =>
      have hx : jGet (Val.map [(strL "instanceId", x)]) (strL "instanceId") =
          some x := rfl
      simp only [List.map_cons, List.mapM_cons, hx, ih]
      rfl

theorem mem_pySet {α : Type} (d : List (Str × α)) (key : Str) (val : α)
    (q : Str × α) (h : q ∈ pySet d key val) : q = (key, val) ∨ q ∈ d := by
  induction d with
  | nil =>
    left
    simpa [pySet] using h
  | cons p rest ih =>
    obtain ⟨pk, pv⟩ := p
    simp only [pySet] at h
    split at h
    · rename_i hk
      rcases List.mem_cons.mp h with h1 | h2
      · left; rw [h1, hk]
      · right; exact List.mem_cons_of_mem _ h2
    · rcases List.mem_cons.mp h with h1 | h2
      · right; exact h1 ▸ List.mem_cons_self _ _
      · rcases ih h2 with h3 | h4
        · left; exact h3
        · right; exact List.mem_cons_of_mem _ h4

theorem pyDictOfPairs_isS (pairs : List (Str × Str)) :
    ∀ q ∈ pyDictOfPairs pairs, q.2.isS = true := by
  suffices h : ∀ (acc : List (Str × Val)), (∀ q ∈ acc, q.2.isS = true) →
      ∀ q ∈ pairs.foldl (fun acc p => pySet acc p.1 (Val.s p.2)) acc,
        q.2.isS = true by
    exact h [] (by simp)
  induction pairs with
  | nil => intro acc hacc; exact hacc
  | cons p ps ih =>
    intro acc hacc
    simp only [List.foldl_cons]
    apply ih
    intro q hq
    rcases mem_pySet _ _ _ _ hq with h1 | h2
    · rw [h1]; rfl
    · exact hacc q h2

theorem mapM_strOfVal_map_s (l : List Str) :
    (l.map Val.s).mapM strOfVal = some l := by
  induction l with
  | nil => rfl
  | cons x xs ih =>
    simp only [List.map_cons, List.mapM_cons, ih]
    rfl

theorem pyGet_detailsOf_security_groups (inst : Instance) :
    pyGet (detailsOf inst) (strL "security_groups") =
      some (Val.list (inst.securityGroups.map Val.s)) := rfl

theorem pyGet_detailsOf_tags (inst : Instance) :
    pyGet (detailsOf inst) (strL "tags") =
      some (Val.map (pyDictOfPairs inst.tags)) := rfl

theorem pySet_detailsOf_security_groups (inst : Instance) (v : Val) :
    pySet (detailsOf inst) (strL "security_groups") v =
      [ (strL "instance_id", Val.s inst.instanceId),
        (strL "private_ip", Val.s (inst.privateIp.getD (strL "N/A"))),
        (strL "public_ip", Val.s (inst.publicIp.getD (strL "N/A"))),
        (strL "instance_type", Val.s (inst.instanceType.getD (strL "Unknown"))),
        (strL "state", Val.s (inst.stateName.getD (strL "Unknown"))),
        (strL "launch_time", Val.s (inst.launchTime.getD (strL "N/A"))),
        (strL "availability_zone", Val.s (inst.availabilityZone.getD (strL "N/A"))),
        (strL "vpc_id", Val.s (inst.vpcId.getD (strL "N/A"))),
        (strL "subnet_id", Val.s (inst.subnetId.getD (strL "N/A"))),
        (strL "security_groups", v),
        (strL "key_name", Val.s (inst.keyName.getD (strL "N/A"))),
        (strL "tags", Val.map (pyDictOfPairs inst.tags)) ] := rfl

theorem foldl_tagcols_preserve (items : List (Str × Val)) (acc : List (Str × Val))
    (hacc : ∀ q ∈ acc, q.1 = strL "tags" ∨ q.2.isS = true)
    (hitems : ∀ kv ∈ items, (kv.2).isS = true) :
    ∀ q ∈ items.foldl (fun acc kv => pySet acc (strL "tag_" ++ kv.1) kv.2) acc,
      q.1 = strL "tags" ∨ q.2.isS = true := by
  induction items generalizing acc with
  | nil => exact hacc
  | cons kv rest ih =>
    simp only [List.foldl_cons]
    apply ih
    · intro q hq
      rcases mem_pySet _ _ _ _ hq with h1 | h2
      · right; rw [h1]; exact hitems kv (by simp)
      · exact hacc q h2
    · intro kv2 h2
      exact hitems kv2 (by simp [h2])

/-- C7: for every tagged resource description, the in-pipeline
flattening succeeds (the record is total) and every value of the
produced row is a scalar string — `security_groups` has become one
joined string, each tag a `tag_<key>` string column, the nested tag
dict is gone, and `processed_at` is a string. -/
theorem c7_flattened_rows_all_scalar (inst : Instance) (now : Str) :
    ∃ r, flatten_instance_record now (detailsOf inst) = some r ∧
      r.all (fun p => p.2.isS) = true := by
  unfold flatten_instance_record
  rw [pyGet_detailsOf_security_groups, pyGet_detailsOf_tags]
  simp only [Option.getD_some, joinCommaSpace, mapM_strOfVal_map_s, valItems,
    Option.map_some, Option.some_bind]
  refine ⟨_, rfl, ?_⟩
  rw [List.all_eq_true]
  intro p hp
  rcases mem_pySet _ _ _ _ hp with h1 | h2
  · rw [h1]; rfl
  · have h3 := List.mem_filter.mp h2
    have h4 : p.1 ≠ strL "tags" := by simpa using h3.2
    have h5 : p.1 = strL "tags" ∨ p.2.isS = true := by
      refine foldl_tagcols_preserve _ _ ?_ (pyDictOfPairs_isS inst.tags) p h3.1
      rw [pySet_detailsOf_security_groups]
      intro q hq
      simp only [List.mem_cons, List.not_mem_nil, or_false] at hq
      rcases hq with rfl | rfl | rfl | rfl | rfl | rfl | rfl | rfl | rfl | rfl |
        rfl | rfl <;> simp [Val.isS]
    rcases h5 with h6 | h6
    · exact absurd h6 h4
    · exact h6

theorem pySet_append_of_not_mem {α : Type} (d : List (Str × α)) (key : Str)
    (val : α) (h : key ∉ keysOf d) : pySet d key val = d ++ [(key, val)] := by
  induction d with
  | nil => rfl
  | cons p rest ih =>
    obtain ⟨pk, pv⟩ := p
    have h1 : pk ≠ key := fun he => h (he ▸ List.mem_cons_self pk (keysOf rest))
    simp only [pySet, if_neg h1, List.cons_append, List.cons.injEq, true_and]
    exact ih (fun hm => h (List.mem_cons_of_mem pk hm))

theorem mem_keysOf_pySet {α : Type} (d : List (Str × α)) (key : Str) (val : α)
    (x : Str) (h : x ∈ keysOf (pySet d key val)) : x = key ∨ x ∈ keysOf d := by
  obtain ⟨q, hq, he⟩ := List.mem_map.mp h
  rcases mem_pySet _ _ _ _ hq with h1 | h2
  · left; rw [← he, h1]
  · right; exact List.mem_map.mpr ⟨q, h2, he⟩

theorem mem_keysOf_foldl_tag (items : List (Str × Val)) (acc : List (Str × Val))
    (x : Str)
    (h : x ∈ keysOf (items.foldl
      (fun a kv => pySet a (strL "tag_" ++ kv.1) kv.2) acc)) :
    x ∈ keysOf acc ∨ ∃ kv ∈ items, x = strL "tag_" ++ kv.1 := by
  induction items generalizing acc with
  | nil => left; exact h
  | cons kv rest ih =>
    simp only [List.foldl_cons] at h
    rcases ih _ h with h1 | h2
    · rcases mem_keysOf_pySet _ _ _ _ h1 with h3 | h4
      · right; exact ⟨kv, by simp, h3⟩
      · left; exact h4
    · obtain ⟨kv2, hm, he⟩ := h2
      right
      exact ⟨kv2, by simp [hm], he⟩

theorem mem_keysOf_pyPop {α : Type} (d : List (Str × α)) (t x : Str)
    (h : x ∈ keysOf (pyPop d t)) : x ∈ keysOf d := by
  obtain ⟨q, hq, he⟩ := List.mem_map.mp h
  exact List.mem_map.mpr ⟨q, List.mem_of_mem_filter hq, he⟩

theorem processed_at_ne_tagcol (k : Str) :
    strL "processed_at" ≠ strL "tag_" ++ k := by
  intro h
  have h2 : (strL "processed_at").head? = (strL "tag_" ++ k).head? :=
    congrArg List.head? h
  have h3 : (strL "processed_at").head? = some 'p' := rfl
  have h4 : (strL "tag_" ++ k).head? = some 't' := rfl
  rw [h3, h4] at h2
  exact absurd (Option.some.inj h2) (by decide)

/-- The core of C10: on one record, the lambda's flattening is the
converter's flattening with `(processed_at, now)` appended. -/
theorem flatten_record_agree (d : List (Str × Val)) (now : Str)
    (r : List (Str × Val)) (hc : load_json_flatten d = some r)
    (hp : strL "processed_at" ∉ keysOf d) :
    flatten_instance_record now d =
      some (r ++ [(strL "processed_at", Val.s now)]) := by
  unfold load_json_flatten at hc
  unfold flatten_instance_record
  cases hsg : joinCommaSpace ((pyGet d (strL "security_groups")).getD
      (Val.list [])) with
  | none => rw [hsg] at hc; simp at hc
  | some sgs =>
    rw [hsg] at hc
    cases hti : valItems ((pyGet d (strL "tags")).getD (Val.map [])) with
    | none => rw [hti] at hc; simp at hc
    | some tag_items =>
      rw [hti] at hc
      simp only [Option.some_bind, Option.some.injEq] at hc ⊢
      rw [← hc]
      apply pySet_append_of_not_mem
      intro hk
      have h1 := mem_keysOf_pyPop _ _ _ hk
      rcases mem_keysOf_foldl_tag _ _ _ h1 with h2 | h3
      · rcases mem_keysOf_pySet _ _ _ _ h2 with h4 | h5
        · simp [strL] at h4
        · exact hp h5
      · obtain ⟨kv, _, he⟩ := h3
        exact processed_at_ne_tagcol kv.1 he

/-- C10: for every mapping of tagged instance details (with no
pre-existing `processed_at` column), the offline converter's flattening
(`load_json_file`) and the merge's in-pipeline flattening produce the
same row list — identical columns and values — except that the
in-pipeline version appends the `processed_at` column to every row. -/
theorem c10_flatten_equivalence (tagged : List (Str × List (Str × Val)))
    (now : Str) (out : List (List (Str × Val)))
    (h1 : tagged.mapM (fun p => load_json_flatten p.2) = some out)
    (h2 : ∀ p ∈ tagged, strL "processed_at" ∉ keysOf p.2) :
    tagged.mapM (fun p => flatten_instance_record now p.2) =
      some (out.map (fun r => r ++ [(strL "processed_at", Val.s now)]))
    ∧ load_json_file_rows tagged = out := by
  constructor
  · induction tagged generalizing out with
    | nil =>
      have h1x : (some [] : Option (List (List (Str × Val)))) = some out := h1
      have hout := Option.some.inj h1x
      subst hout
      rfl
    | cons p ps ih =>
      rw [List.mapM_cons] at h1 ⊢
      cases hc : load_json_flatten p.2 with
      | none => rw [hc] at h1; simp at h1
      | some r =>
        rw [hc] at h1
        cases hm : ps.mapM (fun p => load_json_flatten p.2) with
        | none => rw [hm] at h1; simp at h1
        | some rs =>
          rw [hm] at h1
          have h1x : (some (r :: rs) : Option (List (List (Str × Val)))) =
              some out := h1
          have hout := Option.some.inj h1x
          rw [flatten_record_agree p.2 now r hc (h2 p (by simp)),
            ih rs hm (fun q hq => h2 q (by simp [hq]))]
          subst hout
          rfl
  · unfold load_json_file_rows
    rw [h1]

/-- Witness for `c10_flatten_equivalence` on a concrete one-record
mapping with a security-group list and one tag. -/
theorem c10_flatten_equivalence_witness :
    ([(strL "i-1",
       [(strL "instance_id", Val.s (strL "i")),
        (strL "security_groups", Val.list [Val.s (strL "g")]),
        (strL "tags", Val.map [(strL "env", Val.s (strL "prod"))])])].mapM
      (fun p => load_json_flatten p.2) =
      some [[(strL "instance_id", Val.s (strL "i")),
             (strL "security_groups", Val.s (strL "g")),
             (strL "tag_env", Val.s (strL "prod"))]])
    ∧ (∀ p ∈ [(strL "i-1",
        [(strL "instance_id", Val.s (strL "i")),
         (strL "security_groups", Val.list [Val.s (strL "g")]),
         (strL "tags", Val.map [(strL "env", Val.s (strL "prod"))])])],
        strL "processed_at" ∉ keysOf p.2)
    ∧ ([(strL "i-1",
        [(strL "instance_id", Val.s (strL "i")),
         (strL "security_groups", Val.list [Val.s (strL "g")]),
         (strL "tags", Val.map [(strL "env", Val.s (strL "prod"))])])].mapM
          (fun p => flatten_instance_record (strL "T0") p.2) =
        some ([[(strL "instance_id", Val.s (strL "i")),
                (strL "security_groups", Val.s (strL "g")),
                (strL "tag_env", Val.s (strL "prod"))]].map
          (fun r => r ++ [(strL "processed_at", Val.s (strL "T0"))]))
      ∧ load_json_file_rows
          [(strL "i-1",
            [(strL "instance_id", Val.s (strL "i")),
             (strL "security_groups", Val.list [Val.s (strL "g")]),
             (strL "tags", Val.map [(strL "env", Val.s (strL "prod"))])])] =
          [[(strL "instance_id", Val.s (strL "i")),
            (strL "security_groups", Val.s (strL "g")),
            (strL "tag_env", Val.s (strL "prod"))]]) :=
  ⟨rfl, by decide,
    c10_flatten_equivalence _ (strL "T0") _ rfl (by decide)⟩

theorem store_result_shape (st : S3State) (status : Str)
    (tagged_instances : List (Str × List (Str × Val))) (account_id : Str)
    (ts : Timestamp) (now : Str) :
    (store_to_s3_csv st status tagged_instances account_id ts now).2 = none ∨
    (store_to_s3_csv st status tagged_instances account_id ts now).2 =
      some (s3KeyOf account_id ts) := by
  unfold store_to_s3_csv
  split
  · left; rfl
  · split
    · left; rfl
    · split
      · left; rfl
      · dsimp only
        split
        · left; rfl
        · right; rfl

theorem s3KeyOf_ne_nil (account_id : Str) (ts : Timestamp) :
    s3KeyOf account_id ts ≠ [] := by
  intro h
  have h2 : (s3KeyOf account_id ts).head? = some 'e' := rfl
  rw [h] at h2
  simp at h2

/-- C5: the pipeline result's status is exactly `error` when no
identifiers were extracted, `no_matches` when identifiers were
extracted but the tagged count is zero, and `success` otherwise; in the
first two cases no merge is attempted (the S3 state is unchanged) and
no artifact location is carried; on `success` the result's `s3_report`
is exactly the merge call's return, so the location is present iff the
merge succeeded, and a merge failure leaves the status `success`. -/
theorem c5_pipeline_status (st : S3State) (event : Val)
    (response : Option (List (List Instance))) (account : Option Str)
    (ts : Timestamp) (now : Str) :
    (process_ec2_launch_event st event response account ts now).2.status =
      (if (extract_event_details event).isEmpty then strL "error"
       else if (process_tagged_instances (extract_event_details event)
           response).summary.tagged_count = 0 then strL "no_matches"
       else strL "success")
    ∧ (process_ec2_launch_event st event response account ts now).1 =
      (if (extract_event_details event).isEmpty then st
       else if (process_tagged_instances (extract_event_details event)
           response).summary.tagged_count = 0 then st
       else (store_to_s3_csv st (strL "success")
         (process_tagged_instances (extract_event_details event)
           response).tagged_instances
         (match account with | some a => a | none => strL "None") ts now).1)
    ∧ (process_ec2_launch_event st event response account ts now).2.s3_report =
      (if (extract_event_details event).isEmpty then none
       else if (process_tagged_instances (extract_event_details event)
           response).summary.tagged_count = 0 then none
       else (store_to_s3_csv st (strL "success")
         (process_tagged_instances (extract_event_details event)
           response).tagged_instances
         (match account with | some a => a | none => strL "None") ts now).2) := by
  unfold process_ec2_launch_event
  cases he : (extract_event_details event).isEmpty with
  | true => simp [he]
  | false =>
    by_cases ht : (process_tagged_instances (extract_event_details event)
        response).summary.tagged_count = 0
    · simp [he, ht]
    · rcases store_result_shape st (strL "success")
        (process_tagged_instances (extract_event_details event)
          response).tagged_instances
        (match account with | some a => a | none => strL "None") ts now
        with hs | hs
      · simp [he, ht, hs]
      · simp [he, ht, hs, s3KeyOf_ne_nil]

/-- C1 (evaluation at the failing input): merging a batch that
introduces column `c` into an artifact whose stored header is `a,b`
does NOT rewrite the artifact under the sorted unified header. The old
bytes (header `a,b` and row `1,2`) are re-emitted verbatim, and the new
row is serialized under the widened field list — which, because the
stored CRLF header line is re-parsed with `split('\n')`, also contains
a phantom `"b\r"` column, producing `x,y,,z,t`. The first line of the
written artifact is still `a,b` (plus the stray `\r`), not the unified
header `a,b,c,processed_at` the specification requires. -/
theorem c1_merge_splices_old_bytes :
    mergeContent true (strL "a,b\r\n1,2\r\n")
      [[(strL "a", strL "x"), (strL "b", strL "y"), (strL "c", strL "z"),
        (strL "processed_at", strL "t")]] =
      strL "a,b\r\n1,2\r\nx,y,,z,t\r\n"
    ∧ (splitOnChar '\n' (mergeContent true (strL "a,b\r\n1,2\r\n")
        [[(strL "a", strL "x"), (strL "b", strL "y"), (strL "c", strL "z"),
          (strL "processed_at", strL "t")]])).headD [] ≠
      strL "a,b,c,processed_at" ++ ['\r'] := by
  constructor
  · decide
  · decide

/-! ## Lemmas for the merge-twice analysis (C8)

`strLt` is a strict linear order; `sortedDedup` is characterized by
sortedness plus membership. -/

theorem csvSafeKeys_tail (r : List (Str × Str)) (rs : List (List (Str × Str)))
    (h : csvSafeKeys (r :: rs) = true) : csvSafeKeys rs = true := by
  unfold csvSafeKeys at *
  rw [List.all_cons] at h
  exact (Bool.and_eq_true_iff.mp h).2

end Ec2Report
